import Mathlib

/-!
Verification development for the `athena` archiving utility
(`src/main.rs`, `src/validate.rs`, `src/utils.rs`).

Paths are modelled as lists of components. Filesystem nodes are modelled
as a tree: regular files (with a byte size), directories (with named
children) and symlinks. A symlink carries its raw target string (the
`readlink` result) and the kind its target resolves to under a
following `stat`, so that Rust's `Path::is_file` / `Path::is_dir`
(which follow links) and `Path::is_symlink` / `symlink_metadata`
(which do not) can both be expressed.
-/

namespace Athena

abbrev Path := List String

/-- What a path resolves to under a following `stat`. -/
inductive NodeKind
  | file
  | dir
deriving DecidableEq, Repr

/-- A filesystem node. For a symlink, `target` is the raw `readlink`
string and the second field is what the target resolves to under a
following `stat` (`none` for a dangling link). -/
inductive Node
  | file (size : Nat)
  | dir (children : List (String × Node))
  | symlink (target : String) (resolvesTo : Option NodeKind)
deriving Repr

/-- Rust `Path::is_symlink` (`symlink_metadata`, does not follow links). -/
def isSymlinkNode : Node → Bool
  | .symlink _ _ => true
  | _ => false

/-- Rust `Path::is_file` (follows symlinks). -/
def isFileStat : Node → Bool
  | .file _ => true
  | .symlink _ (some .file) => true
  | _ => false

/-- Rust `Path::is_dir` (follows symlinks). -/
def isDirStat : Node → Bool
  | .dir _ => true
  | .symlink _ (some .dir) => true
  | _ => false

mutual

/-- Embeds `process_input` (src/main.rs:257-276): if the root is a symlink
or a regular file the result is the one-element list holding the root
itself; otherwise the root is a directory and each child is recursed into
when `is_dir()` holds, else pushed directly. The constructor cases mirror
the source guards: `.file` satisfies `is_file()`, `.symlink` satisfies
`is_symlink()` (short-circuiting before any recursion), and only `.dir`
reaches the `read_dir` loop. -/
def process_input (p : Path) : Node → List Path
  | .file _ => [p]
  | .symlink _ _ => [p]
  | .dir cs => goChildren p cs

/-- The `for entry in fs::read_dir(..)` loop body of `process_input`:
a child passing `is_dir()` is recursed into, any other child path is
appended directly. -/
def goChildren (p : Path) : List (String × Node) → List Path
  | [] => []
  | (name, child) :: rest =>
      (if isDirStat child then process_input (p ++ [name]) child
       else [p ++ [name]]) ++ goChildren p rest

end

/-- Embeds `get_inp_path_only` (src/main.rs:177-183): the parent directory
when the input path `is_file()` (a following stat), the path itself
otherwise. -/
def get_inp_path_only (p : Path) (n : Node) : Path :=
  if isFileStat n then p.dropLast else p

/-- Rust `Path::strip_prefix` on component paths: drops the given leading
components, `none` when they are not a leading run. -/
def relStrip : Path → Path → Option Path
  | [], q => some q
  | _ :: _, [] => none
  | a :: as, b :: bs => if a = b then relStrip as bs else none

/-- Kind of a tar entry written by `construct_archive`. -/
inductive EntryType
  | regular
  | symlink
  | directory
deriving DecidableEq, Repr

/-- One entry as recorded in the archive: its archive-internal path, its
kind, the content size in its header, and (for symlinks) the raw link
target. Ownership ids, also set by the source, are not modelled. -/
structure ArchiveEntry where
  path : Path
  etype : EntryType
  size : Nat
  linkTarget : Option String
deriving DecidableEq, Repr

/-- The per-path body of the write loop in `construct_archive`
(src/main.rs:221-235): compute `rel_path` by stripping the input-only
prefix (`unwrap`: `none` on failure), look the path up with
`symlink_metadata` (`unwrap`: `none` when absent); a symlink is appended
as a symlink entry with size 0 and the raw `read_link` target, anything
else goes through `append_path_with_name`. -/
def archiveEntryFor (sf : Path) (lk : Path → Option Node) (q : Path) : Option ArchiveEntry :=
  match relStrip sf q, lk q with
  | some rel, some (.symlink t _) => some ⟨rel, .symlink, 0, some t⟩
  | some rel, some (.file sz) => some ⟨rel, .regular, sz, none⟩
  | some rel, some (.dir _) => some ⟨rel, .directory, 0, none⟩
  | _, _ => none

/-- How the write loop of `construct_archive` ends early: a modelled
`unwrap` panic, or a failed append (the `?` operator) carrying the
progress position at that moment (`files_processed` is not incremented
and `set_position` is not called for the failing entry). -/
inductive LoopErr
  | panicked
  | appendFailed (pos : Nat)
deriving DecidableEq, Repr

/-- Embeds the write loop of `construct_archive` (src/main.rs:220-238).
`ap q` says whether the append call for `q` succeeds (an external I/O
outcome). On success of an append, `files_processed` is incremented and
the progress bar position set to it; the returned `Nat` is the final
progress position. -/
def entryLoop (sf : Path) (lk : Path → Option Node) (ap : Path → Bool) :
    List Path → Nat → Except LoopErr (List ArchiveEntry × Nat)
  | [], fp => .ok ([], fp)
  | q :: rest, fp =>
    match archiveEntryFor sf lk q with
    | none => .error .panicked
    | some e =>
      if ap q then
        match entryLoop sf lk ap rest (fp + 1) with
        | .ok (es, fin) => .ok (e :: es, fin)
        | .error er => .error er
      else .error (.appendFailed fp)

/-- Synthesis of the output file name in `construct_archive`
(src/main.rs:191-200): the destination's own base name when the
destination `is_file()`, otherwise the timestamp-derived name; then the
extension, `tgz` under compression and `tar` otherwise, is appended. -/
def archiveFileName (outputIsFile : Bool) (outputBase timestampName : String)
    (compression : Bool) : String :=
  (if outputIsFile then outputBase else timestampName) ++
    (if compression then ".tgz" else ".tar")

/-- Outcome of the collision check in `construct_archive`: either the
process exits with code 0, or `fs::File::create` runs at the given name
(truncating any file already there). -/
inductive BuildNameOutcome
  | exitZero
  | createAt (name : String)
deriving DecidableEq, Repr

/-- Embeds the collision handling of `construct_archive`
(src/main.rs:202-211): when a file with the candidate name exists in the
destination, the user is asked whether to overwrite (`prompt_user`,
default no); declining exits with code 0, accepting proceeds to
`File::create` on the very same path. When there is no collision the
file is created directly. -/
def resolveCollision (fileName : String) (existsInDest : String → Bool)
    (overwriteAnswer : Bool) : BuildNameOutcome :=
  if existsInDest fileName then
    if overwriteAnswer then .createAt fileName else .exitZero
  else .createAt fileName

/-- What a path resolves to under a following `stat`; `none` models a
path for which `stat` fails (the path does not exist, in particular any
dangling-symlink-free nonexistent path). Rust's `Path::exists` is
`isSome` of this, and `Path::is_file` tests for `some .file` — both are
derived from the same following `stat`, so a path that does not exist is
never `is_file()`. -/
inductive FKind
  | file
  | dir
deriving DecidableEq, Repr

/-- Rust `Path::exists` over a stat view `σ`. -/
def pathExists (σ : Path → Option FKind) (p : Path) : Bool :=
  (σ p).isSome

/-- Rust `Path::is_file` over a stat view `σ`. -/
def pathIsFile (σ : Path → Option FKind) (p : Path) : Bool :=
  match σ p with
  | some .file => true
  | _ => false

/-- Rust `Path::parent` on component paths. -/
def parentOf (p : Path) : Path :=
  p.dropLast

/-- Embeds `validate::input` (src/validate.rs:4-9). -/
def validateInput (σ : Path → Option FKind) (inp : Path) : Except String Path :=
  if !(pathExists σ inp) then
    .error "Specified file or directory does not exist"
  else
    .ok inp

/-- Embeds the handling of `validate::input`'s result in `main`
(src/main.rs:39-45): an error is printed and the process exits with
code 1 (`.error` carries the message and the exit code). -/
def mainInputStep (σ : Path → Option FKind) (inp : Path) : Except (String × Nat) Path :=
  match validateInput σ inp with
  | .ok path => .ok path
  | .error e => .error (e, 1)

/-- Embeds `validate::output` (src/validate.rs:12-32). The second
component records whether the interactive create-directory prompt was
shown. When the path does not exist: the source first tests
`output.is_file() && output.parent().unwrap().exists()` and returns the
path unprompted when that holds; otherwise it prompts, creating the
directory on `y` (then returning the path) and failing otherwise. -/
def validateOutput (σ : Path → Option FKind) (out : Path) (userYes : Bool) :
    Except String Path × Bool :=
  if !(pathExists σ out) then
    if pathIsFile σ out && pathExists σ (parentOf out) then
      (.ok out, false)
    else if userYes then
      (.ok out, true)
    else
      (.error "Output directory does not exist", true)
  else
    (.ok out, false)

/-- Errors of `validate::archive` (src/validate.rs:35-51). `ioRead`
stands for the `io::Error` propagated by the `?` on `read_exact`. -/
inductive VErr
  | notWritten
  | empty
  | ioRead
  | invalid
deriving DecidableEq, Repr

/-- The message attached to each `validate::archive` error in the
source (`read_exact`'s propagated `io::Error` has no fixed text). -/
def VErr.message : VErr → String
  | .notWritten => "Failed to write archive"
  | .empty => "No files were processed"
  | .ioRead => "io error"
  | .invalid => "Invalid archive"

/-- Embeds `validate::archive` (src/validate.rs:35-51) on the artifact's
bytes (`none`: the path does not exist). The `Bool` records whether
`fs::remove_file` ran. Order follows the source: existence check, the
zero-length check (deleting), `read_exact` of two bytes (propagating an
I/O error without deleting when fewer than two bytes exist), and the
gzip magic comparison against `0x1f 0x8b` (deleting on mismatch). The
compression flag is not an input: the source checks the magic bytes
unconditionally. -/
def archiveValidate (artifact : Option (List Nat)) : Except VErr Unit × Bool :=
  match artifact with
  | none => (.error .notWritten, false)
  | some bytes =>
    if bytes.length = 0 then (.error .empty, true)
    else
      match bytes with
      | b0 :: b1 :: _ =>
        if b0 = 0x1f ∧ b1 = 0x8b then (.ok (), false)
        else (.error .invalid, true)
      | _ => (.error .ioRead, false)

/-- The end-of-archive marker `tar::Builder::finish` writes: two
512-byte blocks of zeros. -/
def tarTrailer : List Nat :=
  List.replicate 1024 0

/-- Bytes of an uncompressed artifact as produced by the tar builder in
`construct_archive`: the concatenation of the per-entry blocks followed
by the finish trailer. With zero entries the artifact is exactly the
1024-byte trailer. -/
def buildArtifact (entryBlocks : List (List Nat)) : List Nat :=
  entryBlocks.flatten ++ tarTrailer

/-- The 512-byte ustar header block a tar builder emits for an entry:
it begins with the 100-byte NUL-padded entry name, so the artifact's
leading bytes are the name's bytes. The remaining 412 header bytes
(mode, ownership, size, checksum, ...) are abstracted as zeros here —
`validate::archive` only ever inspects the length and the first two
bytes, and a printable entry name never starts with `0x1f 0x8b`. -/
def tarHeaderBlock (nameBytes : List Nat) : List Nat :=
  nameBytes ++ List.replicate (100 - nameBytes.length) 0 ++ List.replicate 412 0

/-- The artifact of an uncompressed run archiving the single regular
file `a.txt` (name bytes `0x61 0x2e 0x74 0x78 0x74`, ten content bytes
zero-padded to one 512-byte block). -/
def tarArtifactATxt : List Nat :=
  buildArtifact [tarHeaderBlock [0x61, 0x2e, 0x74, 0x78, 0x74] ++ List.replicate 512 0]

/-- Embeds the error handling of the archive phase in `main`
(src/main.rs:104-114): a build or validation error is printed and the
process exits with code 1 (the `.error` carries the message and the
exit code). -/
def mainArchiveStep (v : Except VErr Unit × Bool) : Except (String × Nat) Unit :=
  match v.1 with
  | .ok _ => .ok ()
  | .error e => .error (e.message, 1)

/-- On an artifact of at least two bytes the validator's outcome is
decided by the gzip magic comparison alone. -/
theorem archiveValidate_cons (b0 b1 : Nat) (rest : List Nat) :
    archiveValidate (some (b0 :: b1 :: rest)) =
      if b0 = 0x1f ∧ b1 = 0x8b then (.ok (), false) else (.error .invalid, true) := by
  simp [archiveValidate]

/-- An artifact whose first two bytes are not the gzip magic pair is
deleted and reported invalid. -/
theorem archiveValidate_take2 (bytes : List Nat) (b0 b1 : Nat)
    (h : bytes.take 2 = [b0, b1]) (hne : ¬(b0 = 0x1f ∧ b1 = 0x8b)) :
    archiveValidate (some bytes) = (.error .invalid, true) := by
  match bytes with
  | [] => simp at h
  | [b] => simp at h
  | x :: y :: rest =>
    simp at h
    obtain ⟨hx, hy⟩ := h
    rw [archiveValidate_cons, if_neg]
    rw [hx, hy]
    exact hne

/-- Stripping a path from itself leaves the empty relative path. -/
theorem relStrip_self (p : Path) : relStrip p p = some [] := by
  induction p with
  | nil => rfl
  | cons a as ih => simp [relStrip, ih]

/-- Stripping a nonempty path's parent from the path leaves its base
name. -/
theorem relStrip_dropLast (p : Path) (h : p ≠ []) :
    relStrip p.dropLast p = some [p.getLast h] := by
  induction p with
  | nil => exact absurd rfl h
  | cons a as ih =>
    cases as with
    | nil => rfl
    | cons b bs =>
      have hne : b :: bs ≠ [] := List.cons_ne_nil b bs
      simp only [List.dropLast_cons₂, relStrip, if_pos rfl]
      rw [ih hne]
      simp [List.getLast]

/-- The children loop of `process_input` distributes over list append. -/
theorem goChildren_append (p : Path) (l1 l2 : List (String × Node)) :
    goChildren p (l1 ++ l2) = goChildren p l1 ++ goChildren p l2 := by
  induction l1 with
  | nil => simp [goChildren]
  | cons c rest ih =>
    obtain ⟨name, child⟩ := c
    simp [goChildren, ih]

/-- C8: for every input path that does not exist at validation time,
input validation fails, the diagnostic "Specified file or directory
does not exist" is reported, and the process exits with code 1. -/
theorem c8_missing_input (σ : Path → Option FKind) (p : Path) (h : σ p = none) :
    mainInputStep σ p = .error ("Specified file or directory does not exist", 1) := by
  simp [mainInputStep, validateInput, pathExists, h]

/-- C8 witness: the nonexistent path `missing` on an empty filesystem. -/
theorem c8_missing_input_witness :
    mainInputStep (fun _ => none) ["missing"] =
      .error ("Specified file or directory does not exist", 1) :=
  c8_missing_input (fun _ => none) ["missing"] rfl

/-- C4: the claim says a nonexistent output path that is a well-formed
file path with an existing parent is returned unchanged without
prompting. On the stat view where `out` exists as a directory but
`out/b.tar` does not, `validate::output` on `out/b.tar` nevertheless
prompts (second component `true`) whichever way the user answers,
because `Path::is_file` is false for every path that does not exist,
so the file-target branch can never fire. -/
theorem c4_nonexistent_file_output_prompts :
    (validateOutput (fun p => if p = ["out"] then some FKind.dir else none)
        ["out", "b.tar"] true = (.ok ["out", "b.tar"], true)) ∧
    (validateOutput (fun p => if p = ["out"] then some FKind.dir else none)
        ["out", "b.tar"] false = (.error "Output directory does not exist", true)) := by
  exact ⟨rfl, rfl⟩

/-- C1 counterexample: with `X.tar` already present in the destination,
the collision handling of `construct_archive` never produces `X_1.tar`:
accepting the overwrite prompt re-creates (truncates) `X.tar` itself,
declining exits the process with code 0. -/
theorem c1_collision_counterexample :
    (resolveCollision (archiveFileName false "X" "X" false) (fun s => s == "X.tar") true
        = .createAt "X.tar") ∧
    (resolveCollision (archiveFileName false "X" "X" false) (fun s => s == "X.tar") false
        = .exitZero) ∧
    BuildNameOutcome.createAt "X.tar" ≠ BuildNameOutcome.createAt "X_1.tar" := by
  refine ⟨rfl, rfl, ?_⟩
  decide

/-- C1 amended: when a file with the candidate output name already
exists in the destination, the builder prompts whether to overwrite;
accepting creates (truncates) the file at the very same candidate name
and declining exits the process with code 0 — no integer suffix is ever
appended. -/
theorem c1_collision_prompts (fileName : String) (existsInDest : String → Bool)
    (h : existsInDest fileName = true) :
    resolveCollision fileName existsInDest true = .createAt fileName ∧
    resolveCollision fileName existsInDest false = .exitZero := by
  simp [resolveCollision, h]

/-- C1 witness: the amended behaviour at the concrete collision on
`X.tar`. -/
theorem c1_collision_prompts_witness :
    resolveCollision "X.tar" (fun s => s == "X.tar") false = .exitZero :=
  (c1_collision_prompts "X.tar" (fun s => s == "X.tar") (by decide)).2

/-- C10: when the input root is a symlink resolving to a directory,
enumeration yields exactly the root, `get_inp_path_only` returns the
root path itself (not its parent, since `is_file()` is false), and the
sole entry's archive-internal path is empty after stripping that
prefix. -/
theorem c10_symlink_dir_root (p : Path) (t : String) :
    process_input p (.symlink t (some .dir)) = [p] ∧
    get_inp_path_only p (.symlink t (some .dir)) = p ∧
    archiveEntryFor (get_inp_path_only p (.symlink t (some .dir)))
        (fun r => if r = p then some (.symlink t (some .dir)) else none) p =
      some ⟨[], .symlink, 0, some t⟩ := by
  refine ⟨?_, ?_, ?_⟩
  · simp [process_input]
  · simp [get_inp_path_only, isFileStat]
  · simp [archiveEntryFor, get_inp_path_only, isFileStat, relStrip_self]

/-- C7: for an input that is a single regular file, enumeration yields
exactly that file, the relativization prefix is its parent directory,
and the write loop produces exactly one regular entry whose
archive-internal path is the file's base name. -/
theorem c7_single_file (p : Path) (sz : Nat) (h : p ≠ []) :
    process_input p (.file sz) = [p] ∧
    get_inp_path_only p (.file sz) = p.dropLast ∧
    entryLoop (get_inp_path_only p (.file sz))
        (fun r => if r = p then some (.file sz) else none) (fun _ => true) [p] 0 =
      .ok ([⟨[p.getLast h], .regular, sz, none⟩], 1) := by
  refine ⟨?_, ?_, ?_⟩
  · simp [process_input]
  · simp [get_inp_path_only, isFileStat]
  · simp [entryLoop, archiveEntryFor, get_inp_path_only, isFileStat,
      relStrip_dropLast p h]

/-- C7 witness: the single regular file `/home/x` of three bytes. -/
theorem c7_single_file_witness :
    entryLoop (get_inp_path_only ["home", "x"] (.file 3))
        (fun r => if r = ["home", "x"] then some (.file 3) else none) (fun _ => true)
        [["home", "x"]] 0 =
      .ok ([⟨["x"], .regular, 3, none⟩], 1) :=
  (c7_single_file ["home", "x"] 3 (by simp)).2.2

/-- C2: the claim says the gzip magic check applies only when
compression was requested. `validate::archive` takes no compression
input at all and checks the magic unconditionally: the artifact of an
uncompressed run over the single file `a.txt` (a tar stream whose
leading bytes are the entry name `a.txt`) is deleted and the run fails
with "Invalid archive" instead of returning the path unchanged. -/
theorem c2_uncompressed_artifact_rejected :
    archiveValidate (some tarArtifactATxt) = (.error .invalid, true) ∧
    mainArchiveStep (archiveValidate (some tarArtifactATxt)) =
      .error ("Invalid archive", 1) := by
  have hval : archiveValidate (some tarArtifactATxt) = (.error .invalid, true) := by
    refine archiveValidate_take2 tarArtifactATxt 0x61 0x2e rfl ?_
    decide
  refine ⟨hval, ?_⟩
  rw [hval]
  rfl

/-- C6: the claim says a zero-entry build fails with a "no files were
processed" class error regardless of the compression flag. With
compression off, the artifact of a zero-entry build is the 1024-byte
all-zero trailer `tar::Builder::finish` always writes, so it is never
zero-length: the `empty` branch carrying "No files were processed" is
unreachable, and the run instead deletes the file and exits with
code 1 reporting "Invalid archive" from the magic check. -/
theorem c6_zero_entry_build_error :
    archiveValidate (some (buildArtifact [])) = (.error .invalid, true) ∧
    mainArchiveStep (archiveValidate (some (buildArtifact []))) =
      .error ("Invalid archive", 1) ∧
    VErr.invalid ≠ VErr.empty ∧
    VErr.empty.message = "No files were processed" := by
  have hval : archiveValidate (some (buildArtifact [])) = (.error .invalid, true) := by
    refine archiveValidate_take2 (buildArtifact []) 0 0 rfl ?_
    decide
  refine ⟨hval, ?_, by decide, rfl⟩
  rw [hval]
  rfl

/-- C9: an existing artifact of exactly one byte makes the two-byte
`read_exact` fail; the propagated I/O error is returned without
deleting the file, and deletion happens exactly on the zero-size and
wrong-magic branches. -/
theorem c9_short_artifact_not_deleted :
    (∀ b : Nat, archiveValidate (some [b]) = (.error .ioRead, false)) ∧
    (∀ artifact, (archiveValidate artifact).2 = true ↔
      ∃ bytes, artifact = some bytes ∧
        (bytes.length = 0 ∨ (2 ≤ bytes.length ∧ bytes.take 2 ≠ [0x1f, 0x8b]))) := by
  constructor
  · intro b
    rfl
  · intro artifact
    match artifact with
    | none => simp [archiveValidate]
    | some [] => simp [archiveValidate]
    | some [b] => simp [archiveValidate]
    | some (b0 :: b1 :: rest) =>
      rw [archiveValidate_cons]
      by_cases hmag : b0 = 0x1f ∧ b1 = 0x8b
      · simp [hmag]
      · simp [hmag]

/-- C5 counterexample: one entry whose append fails. The loop aborts
with the progress position still 0 — `files_processed` is incremented
and `set_position` called only after a successful append, so the
indicator is not advanced for the failed entry (the claim would require
position 1 after this one processed entry). -/
theorem c5_failed_append_counterexample :
    (entryLoop ["r"] (fun r => if r = ["r", "a"] then some (.file 7) else none)
        (fun _ => false) [["r", "a"]] 0 = .error (.appendFailed 0)) ∧
    (entryLoop ["r"] (fun r => if r = ["r", "a"] then some (.file 7) else none)
        (fun _ => false) [["r", "a"]] 0 ≠ .error (.appendFailed 1)) := by
  constructor
  · rfl
  · intro hcon
    have h0 : entryLoop ["r"] (fun r => if r = ["r", "a"] then some (.file 7) else none)
        (fun _ => false) [["r", "a"]] 0 = .error (.appendFailed 0) := rfl
    rw [h0] at hcon
    simp at hcon

/-- C5 amended: the progress indicator is advanced by one unit after
each successfully archived entry (on full success it ends at the entry
count); a failed append aborts the whole build immediately, leaving the
indicator at the count of the entries archived before the failure — no
skip-and-continue. -/
theorem c5_progress_per_success :
    (∀ (sf : Path) (lk : Path → Option Node) (ap : Path → Bool) (paths : List Path)
        (fp : Nat) (es : List ArchiveEntry) (fin : Nat),
      entryLoop sf lk ap paths fp = .ok (es, fin) →
        fin = fp + es.length ∧ es.length = paths.length) ∧
    (∀ (sf : Path) (lk : Path → Option Node) (ap : Path → Bool) (pre : List Path)
        (q : Path) (post : List Path) (fp : Nat),
      (∀ r ∈ pre, ap r = true) → (∀ r ∈ pre, (archiveEntryFor sf lk r).isSome) →
      ap q = false → (archiveEntryFor sf lk q).isSome →
      entryLoop sf lk ap (pre ++ q :: post) fp =
        .error (.appendFailed (fp + pre.length))) := by
  constructor
  · intro sf lk ap paths
    induction paths with
    | nil =>
      intro fp es fin hok
      simp [entryLoop] at hok
      obtain ⟨hes, hfin⟩ := hok
      subst hes
      subst hfin
      simp
    | cons q rest ih =>
      intro fp es fin hok
      rw [entryLoop] at hok
      cases harc : archiveEntryFor sf lk q with
      | none => rw [harc] at hok; exact absurd hok (by simp)
      | some e =>
        rw [harc] at hok
        cases hap : ap q with
        | false => rw [hap] at hok; simp at hok
        | true =>
          rw [hap] at hok
          simp only [if_pos rfl, if_true] at hok
          cases hrec : entryLoop sf lk ap rest (fp + 1) with
          | error er => rw [hrec] at hok; simp at hok
          | ok pr =>
            obtain ⟨es', fin'⟩ := pr
            rw [hrec] at hok
            simp only [Except.ok.injEq, Prod.mk.injEq] at hok
            obtain ⟨hes, hfin⟩ := hok
            obtain ⟨h1, h2⟩ := ih (fp + 1) es' fin' hrec
            subst hes
            subst hfin
            constructor
            · simp [h1]
              omega
            · simp [h2]
  · intro sf lk ap pre
    induction pre with
    | nil =>
      intro q post fp hpre hpresome hq hqsome
      obtain ⟨e, he⟩ := Option.isSome_iff_exists.mp hqsome
      simp [entryLoop, he, hq]
    | cons r pre' ih =>
      intro q post fp hpre hpresome hq hqsome
      have hr : ap r = true := hpre r (List.mem_cons_self r pre')
      have hrsome : (archiveEntryFor sf lk r).isSome :=
        hpresome r (List.mem_cons_self r pre')
      obtain ⟨e, he⟩ := Option.isSome_iff_exists.mp hrsome
      have hrest := ih q post (fp + 1)
        (fun x hx => hpre x (List.mem_cons_of_mem r hx))
        (fun x hx => hpresome x (List.mem_cons_of_mem r hx)) hq hqsome
      rw [List.cons_append, entryLoop, he]
      simp [hr, hrest]
      omega

/-- C5 witness for the amended claim: two entries where the second
append fails; the loop aborts with the indicator at 1. -/
theorem c5_progress_per_success_witness :
    entryLoop ["r"] (fun r => if r = ["r", "a"] ∨ r = ["r", "b"] then some (.file 1) else none)
        (fun r => r == ["r", "a"]) [["r", "a"], ["r", "b"]] 0 =
      .error (.appendFailed 1) :=
  c5_progress_per_success.2 ["r"]
    (fun r => if r = ["r", "a"] ∨ r = ["r", "b"] then some (.file 1) else none)
    (fun r => r == ["r", "a"]) [["r", "a"]] ["r", "b"] [] 0
    (by intro r hr; rw [List.mem_singleton] at hr; subst hr; rfl)
    (by intro r hr; rw [List.mem_singleton] at hr; subst hr; rfl)
    rfl rfl

/-- C3: symlinks never get recursed through and are stored as symlink
entries. A symlink root enumerates to just itself; a symlink child of a
directory — whatever its target resolves to, a directory included —
contributes exactly its own path to the enumeration; and the write loop
records a path whose `symlink_metadata` is a symlink as an entry of
symlink type with content size 0 and the raw `read_link` target, never
reading content through the link. -/
theorem c3_symlink_policy :
    (∀ (p : Path) (t : String) (k : Option NodeKind),
      process_input p (.symlink t k) = [p]) ∧
    (∀ (p : Path) (name t : String) (k : Option NodeKind)
        (pre post : List (String × Node)),
      process_input p (.dir (pre ++ (name, .symlink t k) :: post)) =
        goChildren p pre ++ [p ++ [name]] ++ goChildren p post) ∧
    (∀ (sf q : Path) (t : String) (k : Option NodeKind) (other : Path → Option Node),
      archiveEntryFor sf (fun r => if r = q then some (.symlink t k) else other r) q =
        (relStrip sf q).map (fun rel => ⟨rel, .symlink, 0, some t⟩)) := by
  refine ⟨?_, ?_, ?_⟩
  · intro p t k
    simp [process_input]
  · intro p name t k pre post
    have hcontrib :
        (if isDirStat (.symlink t k) then process_input (p ++ [name]) (.symlink t k)
         else [p ++ [name]]) = [p ++ [name]] := by
      cases hd : isDirStat (.symlink t k) <;> simp [process_input]
    rw [process_input, goChildren_append, goChildren, hcontrib]
    simp [List.append_assoc]
  · intro sf q t k other
    cases hrs : relStrip sf q <;> simp [archiveEntryFor, hrs]

/-- Sanity check of the tree walker on a mixed directory: a regular
file and a symlink-to-directory are emitted as leaves, a real
subdirectory is recursed into. -/
theorem process_input_mixed_example :
    process_input ["r"]
        (.dir [("a", .file 1), ("s", .symlink "x" (some .dir)), ("d", .dir [("b", .file 2)])]) =
      [["r", "a"], ["r", "s"], ["r", "d", "b"]] := by decide

/-- Sanity check of the validator on a gzip-magic artifact: it is
accepted and not deleted. -/
theorem archiveValidate_gzip_example :
    archiveValidate (some [0x1f, 0x8b, 0]) = (.ok (), false) := rfl

end Athena
